import Mathlib

/-
Verification of the openstreetmap-mcp server against its specification.

Shallow embedding conventions:
* Python floats are modelled as rationals (ℚ); Python `round(x, n)` is
  modelled by `pyRound`, a round-half-to-even on rationals.
* JSON-like dictionaries with string keys are modelled as association
  lists (`List (String × _)`); Python dict keys are unique, and lookups
  use the first matching key.
* Upstream HTTP calls are modelled by oracle functions or by explicit
  `Except`-valued outcomes passed into the tool embeddings: `.error msg`
  stands for a raised exception, `.ok v` for a successful response body.
* Python `list.sort` is a stable ascending sort; it is modelled with
  `List.insertionSort`, which is also stable.
-/

/-! ## Basic values -/

/-- Floor of a rational, computed from numerator and denominator
(`Int.fdiv` is floor division, matching mathematical floor). -/
def ratFloor (x : ℚ) : ℤ :=
  Int.fdiv x.num (x.den : ℤ)

/-- Python round-half-to-even to the nearest integer, on rationals. -/
def pyRoundInt (x : ℚ) : ℤ :=
  let f : ℤ := ratFloor x
  let frac : ℚ := x - (f : ℚ)
  if frac < 1/2 then f
  else if 1/2 < frac then f + 1
  else if f % 2 = 0 then f else f + 1

/-- Python `round(x, digits)` modelled on rationals. -/
def pyRound (digits : ℕ) (x : ℚ) : ℚ :=
  ((pyRoundInt (x * 10 ^ digits) : ℚ)) / 10 ^ digits

/-! ## Tags and raw upstream features -/

/-- An OSM tag mapping (Python dict key → string value). -/
abbrev Tags := List (String × String)

/-- Python `tags.get(k)`: first value bound to key `k`, if any. -/
def tagsGet (t : Tags) (k : String) : Option String :=
  (t.find? (fun p => p.1 = k)).map (fun p => p.2)

/-- The `center` object a provider attaches to way/relation elements
(`{"lat": ..., "lon": ...}`; either key may be absent). -/
structure CenterObj where
  lat : Option ℚ
  lon : Option ℚ
deriving DecidableEq, Repr

/-- A raw element of the upstream `elements` array: type (`"node"`,
`"way"`, `"relation"`), id, optional own coordinates, optional `center`
field and a tag mapping (absent `tags` is the empty mapping). -/
structure RawFeature where
  type : String
  id : ℤ
  lat : Option ℚ
  lon : Option ℚ
  center : Option CenterObj
  tags : Tags
deriving DecidableEq, Repr

/-- A `coordinates` object built by the tools: a dict with keys
`latitude` and `longitude` whose values may be JSON null (`none`). -/
structure Coords where
  latitude : Option ℚ
  longitude : Option ℚ
deriving DecidableEq, Repr

/-- Shared coordinate-extraction shape of the tools
(`coords = {}` / `if type == "node"` / `elif "center" in feature`):
`none` models the empty — hence falsy — dict `{}`, while
`some c` models a two-key dict, which is truthy even when both
values are null. -/
def extractCoords (f : RawFeature) : Option Coords :=
  if f.type = "node" then some ⟨f.lat, f.lon⟩
  else
    match f.center with
    | some c => some ⟨c.lat, c.lon⟩
    | none => none

/-! ## Dict-building helpers (Python `dict` insertion semantics) -/

/-- Update the binding of `k` in an association list, inserting
`upd dflt` at the end when `k` is absent (Python
`if k not in d: d[k] = dflt` followed by an in-place update). -/
def dictUpdate {β : Type} (g : List (String × β)) (k : String) (dflt : β) (upd : β → β) :
    List (String × β) :=
  match g with
  | [] => [(k, upd dflt)]
  | p :: rest =>
      if p.1 = k then (p.1, upd p.2) :: rest
      else p :: dictUpdate rest k dflt upd

/-- Total number of records in a one-level grouping
(subcategory → list of records). -/
def innerSize {β : Type} (inner : List (String × List β)) : ℕ :=
  (inner.map (fun p => p.2.length)).sum

/-- Total number of records in a two-level grouping
(category → subcategory → list of records). -/
def outerSize {β : Type} (g : List (String × List (String × List β))) : ℕ :=
  (g.map (fun p => innerSize p.2)).sum

/-! ## Upstream client lifecycle (`client.py`, `OSMClient`) -/

/-- An `aiohttp.ClientSession`; `close()` marks it closed but the object
itself remains. -/
structure ClientSession where
  closed : Bool
deriving DecidableEq, Repr

/-- The client state: `session` is `None` after `__init__` and holds a
session object once `connect` has run. -/
structure OSMClient where
  session : Option ClientSession
deriving DecidableEq, Repr

/-- Constructor `OSMClient.__init__`: `self.session = None`. -/
def OSMClient.init : OSMClient := ⟨none⟩

/-- Method `connect`: `self.session = aiohttp.ClientSession()`. -/
def OSMClient.connect (_c : OSMClient) : OSMClient := ⟨some ⟨false⟩⟩

/-- Method `disconnect`: `if self.session: await self.session.close()`.
The session attribute is never cleared; it only becomes closed. -/
def OSMClient.disconnect (c : OSMClient) : OSMClient :=
  match c.session with
  | some _ => ⟨some ⟨true⟩⟩
  | none => ⟨none⟩

/-- Observable first step of a client operation: either the guard
`if not self.session: raise RuntimeError("OSM client not connected")`
fires, or the body proceeds to issue a network request. -/
inductive OpBehavior where
  | notConnectedError
  | issuesNetworkRequest
deriving DecidableEq, Repr

/-- Guard at the top of `OSMClient.geocode`. -/
def OSMClient.geocodeGuard (c : OSMClient) : OpBehavior :=
  match c.session with
  | none => .notConnectedError
  | some _ => .issuesNetworkRequest

/-- Guard at the top of `OSMClient.reverse_geocode`. -/
def OSMClient.reverseGeocodeGuard (c : OSMClient) : OpBehavior :=
  match c.session with
  | none => .notConnectedError
  | some _ => .issuesNetworkRequest

/-- Guard at the top of `OSMClient.get_route`. -/
def OSMClient.getRouteGuard (c : OSMClient) : OpBehavior :=
  match c.session with
  | none => .notConnectedError
  | some _ => .issuesNetworkRequest

/-- Guard at the top of `OSMClient.get_nearby_pois`. -/
def OSMClient.getNearbyPoisGuard (c : OSMClient) : OpBehavior :=
  match c.session with
  | none => .notConnectedError
  | some _ => .issuesNetworkRequest

/-- Guard at the top of `OSMClient.search_features_by_category`. -/
def OSMClient.searchFeaturesGuard (c : OSMClient) : OpBehavior :=
  match c.session with
  | none => .notConnectedError
  | some _ => .issuesNetworkRequest

/-! ## Radius-to-bounding-box conversion

The tools compute `lat_delta = radius / 111000` and
`lon_delta = radius / (111000 * math.cos(math.radians(latitude)))` and
form the box `(lon - lon_delta, lat - lat_delta, lon + lon_delta,
lat + lat_delta)`. The trigonometric factor
`cos(radians(latitude))` is embedded as an explicit parameter `cosLat`;
it is strictly positive exactly when the latitude lies strictly between
-90° and 90°. -/

/-- Bounding box `(minLon, minLat, maxLon, maxLat)` as the tuple built
by the source. -/
structure BBox where
  minLon : ℚ
  minLat : ℚ
  maxLon : ℚ
  maxLat : ℚ
deriving DecidableEq, Repr

/-- The radius-to-bounding-box conversion shared by `get_nearby_pois`,
`explore_area`, `analyze_neighborhood` and the extras tools, with
`cosLat` standing for `math.cos(math.radians(lat))`. -/
def bboxFromRadius (lat lon radius cosLat : ℚ) : BBox :=
  let latDelta := radius / 111000
  let lonDelta := radius / (111000 * cosLat)
  ⟨lon - lonDelta, lat - latDelta, lon + lonDelta, lat + latDelta⟩

/-! ## search_category (`openstreetmap_mcp/tools/search.py`) -/

/-- A result record of `search_category`. -/
structure SearchRecord where
  id : ℤ
  type : String
  name : String
  coordinates : Coords
  category : String
  subcategory : Option String
  tags : Tags
deriving DecidableEq, Repr

/-- Record built by `search_category` for a kept feature. -/
def mkSearchRecord (category : String) (f : RawFeature) (c : Coords) : SearchRecord :=
  { id := f.id
  , type := f.type
  , name := (tagsGet f.tags "name").getD "Unnamed"
  , coordinates := c
  , category := category
  , subcategory := tagsGet f.tags category
  , tags := f.tags }

/-- The result-shaping loop of `search_category`: a feature is appended
only when its coordinates dict is truthy (`if coords:`), i.e. when it is
a node or carries a `center` field. -/
def search_category (category : String) (features : List RawFeature) : List SearchRecord :=
  features.filterMap (fun f => (extractCoords f).map (mkSearchRecord category f))

/-! ## explore_area (`osm_mcp_server/tools/analysis.py`) -/

/-- A feature record of `explore_area`; `coordinates = none` models the
empty dict `{}` assigned when the feature is neither a node nor carries
a `center` field (there is no skip in this tool). -/
structure ExploreRecord where
  id : ℤ
  name : String
  coordinates : Option Coords
  type : String
  tags : Tags
deriving DecidableEq, Repr

/-- Record built by `explore_area` for a grouped feature. -/
def mkExploreRecord (f : RawFeature) : ExploreRecord :=
  { id := f.id
  , name := (tagsGet f.tags "name").getD "Unnamed"
  , coordinates := extractCoords f
  , type := f.type
  , tags := f.tags }

/-- Python truthiness test `if subcategory:` on `tags.get(category)`:
the feature is grouped only when the tag is present and non-empty. -/
def exploreSubcatOf (category : String) (f : RawFeature) : Option String :=
  match tagsGet f.tags category with
  | some s => if s = "" then none else some s
  | none => none

/-- Per-category grouping loop of `explore_area`
(subcategory → list of records, in insertion order). -/
def exploreStep (category : String) (acc : List (String × List ExploreRecord))
    (f : RawFeature) : List (String × List ExploreRecord) :=
  match exploreSubcatOf category f with
  | some sub => dictUpdate acc sub [] (fun l => l ++ [mkExploreRecord f])
  | none => acc

/-- Per-category grouping of `explore_area`: fold the loop body over the
fetched features, starting from the empty dict. -/
def exploreGroup (category : String) (features : List RawFeature) :
    List (String × List ExploreRecord) :=
  features.foldl (exploreStep category) []

/-- The `address` field of the `explore_area` result: the
reverse-geocode dict on success, the placeholder error object on
failure. -/
inductive ExploreAddress where
  | info (a : Tags)
  | errorObj (msg : String)
deriving DecidableEq, Repr

/-- The `explore_area` result (query echo and timestamp omitted). -/
structure ExploreResult where
  address : ExploreAddress
  categories : List (String × List (String × List ExploreRecord))
  total_features : ℕ
deriving DecidableEq, Repr

/-- The `explore_area` tool over the outcomes of its upstream calls:
one `Except`-valued fetch per category (a `.error` is the caught
per-category exception, recorded as an empty result `{}`), plus the
outcome of the final best-effort reverse geocode. The function is
total: no input makes it raise. -/
def explore_area (cats : List (String × Except String (List RawFeature)))
    (revgeo : Except String Tags) : ExploreResult :=
  let results := cats.map (fun p =>
    (p.1, match p.2 with
          | .ok fs => exploreGroup p.1 fs
          | .error _ => []))
  { address :=
      match revgeo with
      | .ok a => .info a
      | .error _ => .errorObj "Could not retrieve address information"
  , categories := results
  , total_features := outerSize results }

/-! ## find_nearby_places (`openstreetmap_mcp/tools/search.py`) -/

/-- A place record of `find_nearby_places`; latitude and longitude are
copied from the raw element without any check. -/
structure NearbyPlaceInfo where
  id : ℤ
  name : String
  latitude : Option ℚ
  longitude : Option ℚ
  tags : Tags
deriving DecidableEq, Repr

/-- Record built by `find_nearby_places` for a matching place. -/
def mkNearbyPlaceInfo (p : RawFeature) : NearbyPlaceInfo :=
  { id := p.id
  , name := (tagsGet p.tags "name").getD "Unnamed"
  , latitude := p.lat
  , longitude := p.lon
  , tags := p.tags }

/-- One insertion into the two-level grouping of `find_nearby_places`
(`results_by_category[category][subcategory].append(place_info)` with
on-demand creation of the inner dict and list). -/
def nearbyAddPlace (acc : List (String × List (String × List NearbyPlaceInfo)))
    (category sub : String) (v : NearbyPlaceInfo) :
    List (String × List (String × List NearbyPlaceInfo)) :=
  dictUpdate acc category [] (fun inner => dictUpdate inner sub [] (fun l => l ++ [v]))

/-- Grouping loop of `find_nearby_places`: the flat upstream sequence is
truncated to `limit`, then each place is appended once per requested
category whose key appears in its tags (the category loop has no early
exit). -/
def nearbyCatStep (place : RawFeature)
    (acc2 : List (String × List (String × List NearbyPlaceInfo))) (category : String) :
    List (String × List (String × List NearbyPlaceInfo)) :=
  match tagsGet place.tags category with
  | some sub => nearbyAddPlace acc2 category sub (mkNearbyPlaceInfo place)
  | none => acc2

/-- Body of the outer place loop: try every requested category for one
place (no early exit). -/
def nearbyPlaceStep (categories : List String)
    (acc : List (String × List (String × List NearbyPlaceInfo))) (place : RawFeature) :
    List (String × List (String × List NearbyPlaceInfo)) :=
  categories.foldl (nearbyCatStep place) acc

/-- Grouping of `find_nearby_places`: fold the loops over the truncated
upstream sequence, starting from the empty dict. -/
def find_nearby_places_grouped (places : List RawFeature) (categories : List String)
    (limit : ℕ) : List (String × List (String × List NearbyPlaceInfo)) :=
  (places.take limit).foldl (nearbyPlaceStep categories) []

/-- The `total_count` of `find_nearby_places`: the sum of the lengths of
all leaf lists of the grouping. -/
def find_nearby_places_total (places : List RawFeature) (categories : List String)
    (limit : ℕ) : ℕ :=
  outerSize (find_nearby_places_grouped places categories limit)

/-! ## analyze_neighborhood scoring (`osm_mcp_server/tools/analysis.py`)

The per-category body runs inside one `try`/`except`; any exception —
including the `TypeError` raised by `haversine` when a kept feature has
a null coordinate value — degrades the category to a zero score with a
recorded error. The haversine distance from the fixed query center is
embedded as an oracle `hav : ℚ → ℚ → ℚ` of the feature's latitude and
longitude. -/

/-- A feature record of `analyze_neighborhood`; `distance` is stored
rounded to one decimal, as in the source. -/
structure NbFeature where
  id : ℤ
  name : String
  type : String
  coordinates : Coords
  distance : ℚ
  tags : Tags
deriving DecidableEq, Repr

/-- Record built by `analyze_neighborhood` for a kept feature with raw
distance `d`. -/
def mkNbFeature (f : RawFeature) (c : Coords) (d : ℚ) : NbFeature :=
  { id := f.id
  , name := (tagsGet f.tags "name").getD "Unnamed"
  , type := f.type
  , coordinates := c
  , distance := pyRound 1 d
  , tags := f.tags }

/-- Feature loop of `analyze_neighborhood`: skip features whose
coordinates dict is empty (`if not coords: continue`), compute the
distance of the rest, and fail with a `TypeError` when a kept feature
has a null coordinate value (which the per-category handler then turns
into a category error). Returns the `(feature_list, distances)` entries
in order. -/
def neighborhoodScan (hav : ℚ → ℚ → ℚ) : List RawFeature → Except String (List (NbFeature × ℚ))
  | [] => .ok []
  | f :: rest =>
      match extractCoords f with
      | none => neighborhoodScan hav rest
      | some c =>
          match c.latitude, c.longitude with
          | some la, some lo =>
              (neighborhoodScan hav rest).map
                (fun out => (mkNbFeature f c (hav la lo), hav la lo) :: out)
          | some _, none => .error "TypeError"
          | none, _ => .error "TypeError"

/-- Per-category score formula for a non-zero count:
`min(count/5, 1) * 5 + (5 - min(min_distance/radius, 1) * 5)`. -/
def catScoreFun (radius : ℚ) (count : ℕ) (minDist : ℚ) : ℚ :=
  min ((count : ℚ) / 5) 1 * 5 + (5 - min (minDist / radius) 1 * 5)

/-- Per-category result of `analyze_neighborhood` (the `results` entry
of a successfully analyzed category, feature list truncated to 10). -/
structure CategoryData where
  count : ℕ
  features : List NbFeature
  avgDistance : Option ℚ
  minDistance : Option ℚ
  score : ℚ
deriving DecidableEq, Repr

/-- Metric/score computation of one successfully fetched category. The
reported metrics follow the source truthiness (`round(x, 1) if x else
None`): a zero average or minimum is reported as null. The score is 0
exactly when the distances list is empty, i.e. when the count is 0. -/
def categoryAnalysis (radius : ℚ) (hav : ℚ → ℚ → ℚ) (fs : List RawFeature) :
    Except String CategoryData :=
  (neighborhoodScan hav fs).map (fun out =>
    let featureList := out.map (fun p => p.1)
    let distances := out.map (fun p => p.2)
    let sorted := List.insertionSort (fun a b => a.distance ≤ b.distance) featureList
    let count := featureList.length
    let minD := distances.min?
    { count := count
    , features := sorted.take 10
    , avgDistance :=
        if count = 0 then none
        else
          let a := distances.sum / (count : ℚ)
          if a = 0 then none else some (pyRound 1 a)
    , minDistance :=
        match minD with
        | none => none
        | some m => if m = 0 then none else some (pyRound 1 m)
    , score :=
        match minD with
        | none => 0
        | some m => catScoreFun radius count m })

/-- One category of `analyze_neighborhood`: the upstream fetch outcome
and processing under the shared `try`/`except`, yielding the stored
result (`.error` for the recorded error object) and the score
contribution (0 on any failure). -/
def categoryOutcome (radius : ℚ) (hav : ℚ → ℚ → ℚ)
    (fetch : Except String (List RawFeature)) : Except String CategoryData × ℚ :=
  match fetch with
  | .error e => (.error e, 0)
  | .ok fs =>
      match categoryAnalysis radius hav fs with
      | .error e => (.error e, 0)
      | .ok d => (.ok d, d.score)

/-- The `scores` values of `analyze_neighborhood`, one per category in
order (the ten fixed category names are distinct, so the Python dict is
faithfully a list). -/
def neighborhoodScores (radius : ℚ) (hav : ℚ → ℚ → ℚ)
    (cats : List (Except String (List RawFeature))) : List ℚ :=
  cats.map (fun fetch => (categoryOutcome radius hav fetch).2)

/-- The reported overall neighborhood score:
`sum(scores.values()) / len(scores)` when any categories exist, else 0,
rounded to one decimal. -/
def overallScore (radius : ℚ) (hav : ℚ → ℚ → ℚ)
    (cats : List (Except String (List RawFeature))) : ℚ :=
  let scores := neighborhoodScores radius hav cats
  pyRound 1 (if scores.isEmpty then 0 else scores.sum / (scores.length : ℚ))

/-! ## Routing tools (`osm_mcp_server/tools/routing.py`) -/

/-- A raw OSRM step: `maneuver.instruction`, `distance`, `duration`,
`name`, each possibly absent. -/
structure RawStep where
  instruction : Option String
  distance : Option ℚ
  duration : Option ℚ
  name : Option String
deriving DecidableEq, Repr

/-- A shaped turn-by-turn step as built by both routing tools. -/
structure StepInfo where
  instruction : String
  distance : Option ℚ
  duration : Option ℚ
  name : String
deriving DecidableEq, Repr

/-- Step shaping (`step.get("maneuver", {}).get("instruction", "")`,
`step.get("distance")`, `step.get("duration")`, `step.get("name", "")`). -/
def mkStepInfo (s : RawStep) : StepInfo :=
  { instruction := s.instruction.getD ""
  , distance := s.distance
  , duration := s.duration
  , name := s.name.getD "" }

/-- A raw OSRM route: distance and duration in meters/seconds (possibly
absent), the optional `legs` array (each leg contributing its
`steps` list, `[]` when absent), and the passthrough geometry. -/
structure RawRoute where
  distance : Option ℚ
  duration : Option ℚ
  legs : Option (List (List RawStep))
  geometry : Option String
deriving DecidableEq, Repr

/-- Flattening of the per-leg step lists into one directions list
(`for leg in route["legs"]: for step in leg.get("steps", [])`),
performed only when the `legs` key is present. -/
def extractSteps (r : RawRoute) : List StepInfo :=
  match r.legs with
  | none => []
  | some legs => (legs.map (fun leg => leg.map mkStepInfo)).flatten

/-- A raw OSRM response body: the `routes` candidate array and the
`waypoints` passthrough. -/
structure RouteData where
  routes : List RawRoute
  waypoints : List Tags
deriving DecidableEq, Repr

/-- The closed set of valid transportation modes. -/
def valid_modes : List String := ["car", "bike", "foot"]

/-- The `summary` object of `get_route_directions`. -/
structure RouteSummary where
  distance : Option ℚ
  duration : Option ℚ
  mode : String
deriving DecidableEq, Repr

/-- The success payload of `get_route_directions`. -/
structure DirectionsResult where
  summary : RouteSummary
  directions : List StepInfo
  geometry : Option String
  waypoints : List Tags
deriving DecidableEq, Repr

/-- An invocation of `get_route_directions`: the warnings emitted, the
mode actually sent to the routing client, and the outcome (`.error` for
a raised exception, including "No route found" for an empty candidate
array). `routeFor` is the oracle for `osm_client.get_route`. -/
structure RouteDirectionsCall where
  warnings : List String
  requestedMode : String
  result : Except String DirectionsResult
deriving Repr

/-- Response shaping of `get_route_directions` for the (validated) mode
`m`: a raised request or an empty candidate array is an error, else the
first route is summarized. -/
def routeResultFor (m : String) (routeFor : String → Except String RouteData) :
    Except String DirectionsResult :=
  match routeFor m with
  | .error e => .error e
  | .ok data =>
      match data.routes with
      | [] => .error "No route found"
      | r :: _ =>
          .ok { summary := { distance := r.distance, duration := r.duration, mode := m }
              , directions := extractSteps r
              , geometry := r.geometry
              , waypoints := data.waypoints }

/-- The `get_route_directions` tool: an invalid mode is rewritten to
`car` with a warning before the request is issued. -/
def get_route_directions (mode : String) (routeFor : String → Except String RouteData) :
    RouteDirectionsCall :=
  let m := if mode ∈ valid_modes then mode else "car"
  { warnings := if mode ∈ valid_modes then [] else ["Invalid mode. Using car instead."]
  , requestedMode := m
  , result := routeResultFor m routeFor }

/-- A `commute_options` entry of `analyze_commute`: a success carries
`distance_km`, `duration_minutes` and `directions`; a failure carries
only `mode` and `error`. -/
structure CommuteEntry where
  mode : String
  distance_km : Option ℚ
  duration_minutes : Option ℚ
  directions : Option (List StepInfo)
  error : Option String
deriving DecidableEq, Repr

/-- Success entry of `analyze_commute`
(`round(distance/1000, 2)` km, `round(duration/60, 1)` minutes). -/
def successEntry (mode : String) (r : RawRoute) : CommuteEntry :=
  { mode := mode
  , distance_km := some (pyRound 2 ((r.distance.getD 0) / 1000))
  , duration_minutes := some (pyRound 1 ((r.duration.getD 0) / 60))
  , directions := some (extractSteps r)
  , error := none }

/-- Failure entry of `analyze_commute` (`{"mode": mode, "error": str(e)}`). -/
def errorEntry (mode msg : String) : CommuteEntry :=
  { mode := mode
  , distance_km := none
  , duration_minutes := none
  , directions := none
  , error := some msg }

/-- Sort key of `analyze_commute`
(`x.get("duration_minutes", float("inf"))`). -/
def commuteSortKey (e : CommuteEntry) : WithTop ℚ :=
  match e.duration_minutes with
  | some d => (d : WithTop ℚ)
  | none => ⊤

/-- The per-mode loop of `analyze_commute`: a raised route request
appends an error entry; a response with no route candidates appends
nothing; a response with candidates appends a success entry for the
first candidate. The mode is passed to the oracle unvalidated. -/
def commuteEntries (modes : List String) (routeFor : String → Except String RouteData) :
    List CommuteEntry :=
  modes.foldr
    (fun m acc =>
      (match routeFor m with
       | .error e => [errorEntry m e]
       | .ok data =>
           match data.routes with
           | [] => []
           | r :: _ => [successEntry m r]) ++ acc)
    []

/-- The `analyze_commute` result (query echo omitted). -/
structure CommuteResult where
  homeAddress : String
  workAddress : String
  commute_options : List CommuteEntry
  fastest_option : Option String
  depart_at : Option String
deriving DecidableEq, Repr

/-- The `analyze_commute` tool over the route oracle and the two
already-fetched reverse-geocode dicts (an exception in those initial
calls would abort the whole tool before the loop; it is outside this
embedding). Entries are sorted ascending by the duration key, failures
keyed as +infinity; `fastest_option` is the mode of the first entry of
the sorted list, or null when there are no entries at all. -/
def analyze_commute (modes : List String) (routeFor : String → Except String RouteData)
    (homeInfo workInfo : Tags) (departAt : Option String) : CommuteResult :=
  let options := commuteEntries modes routeFor
  let sorted := List.insertionSort (fun a b => commuteSortKey a ≤ commuteSortKey b) options
  { homeAddress := (tagsGet homeInfo "display_name").getD "Unknown location"
  , workAddress := (tagsGet workInfo "display_name").getD "Unknown location"
  , commute_options := sorted
  , fastest_option := sorted.head?.map (fun e => e.mode)
  , depart_at := departAt }

/-! ## suggest_meeting_point (`openstreetmap_mcp/tools/extras.py`) -/

/-- One input location (`loc.get("latitude", 0)` defaults an absent key
to 0). -/
structure MeetLocation where
  latitude : Option ℚ
  longitude : Option ℚ
deriving DecidableEq, Repr

/-- A suggested-venue record. -/
structure VenueInfo where
  id : ℤ
  name : String
  latitude : Option ℚ
  longitude : Option ℚ
  tags : Tags
deriving DecidableEq, Repr

/-- Venue filter of `suggest_meeting_point`:
`tags.get("amenity") == venue_type`. -/
def matchingVenues (venues : List RawFeature) (venueType : String) : List VenueInfo :=
  venues.filterMap (fun v =>
    if tagsGet v.tags "amenity" = some venueType then
      some { id := v.id
           , name := (tagsGet v.tags "name").getD "Unnamed Venue"
           , latitude := v.lat
           , longitude := v.lon
           , tags := v.tags }
    else none)

/-- The `suggest_meeting_point` result; `queriedRadii` instruments the
embedding with the radii of the `get_nearby_pois` calls issued, in
order. -/
structure MeetingResult where
  centerLat : ℚ
  centerLon : ℚ
  suggested_venues : List VenueInfo
  venue_type : String
  total_options : ℕ
  queriedRadii : List ℚ
deriving DecidableEq, Repr

/-- The `suggest_meeting_point` tool: fewer than two locations raise a
`ValueError`; the center is the arithmetic mean of the (defaulted)
latitudes and longitudes; when the 500 m search yields no venue of the
requested type, exactly one further search at 1000 m is issued; the
result returns the first five matches and the count of all matches.
`poisAt` is the oracle for `get_nearby_pois` at the computed center
with categories `["amenity"]`, keyed by the radius. -/
def suggest_meeting_point (locations : List MeetLocation) (venueType : String)
    (poisAt : ℚ → List RawFeature) : Except String MeetingResult :=
  if locations.length < 2 then
    .error "Need at least two locations to suggest a meeting point"
  else
    let avgLat := (locations.map (fun l => l.latitude.getD 0)).sum / (locations.length : ℚ)
    let avgLon := (locations.map (fun l => l.longitude.getD 0)).sum / (locations.length : ℚ)
    let first := matchingVenues (poisAt 500) venueType
    let matching := if first.isEmpty then matchingVenues (poisAt 1000) venueType else first
    .ok { centerLat := avgLat
        , centerLon := avgLon
        , suggested_venues := matching.take 5
        , venue_type := venueType
        , total_options := matching.length
        , queriedRadii := if first.isEmpty then [500, 1000] else [500] }

/-! ## find_ev_charging_stations (`openstreetmap_mcp/tools/extras.py`)

Python `float(...)` parsing of the `maxpower` tag is embedded as an
oracle `parse : String → Option ℚ` (`none` models a `ValueError`), and
the haversine distance from the fixed query center as an oracle
`hav : ℚ → ℚ → ℚ` of the station's latitude and longitude. -/

/-- Python `str.isdigit`: non-empty and all digits. -/
def pyIsDigit (s : String) : Bool :=
  !s.isEmpty && s.all Char.isDigit

/-- A connector entry: `count` is the raw tag value when it is all
digits, and the number 1 otherwise (the source mixes the two types). -/
structure ConnectorInfo where
  type : String
  count : String ⊕ ℕ
deriving DecidableEq, Repr

/-- Python `str.startswith`, computed on the character lists so that it
reduces inside the kernel. -/
def strStartsWith (s pre : String) : Bool :=
  pre.data.isPrefixOf s.data

/-- Connector extraction: every tag whose key starts with `socket:`
contributes its suffix (`key.split(":", 1)[1]`, i.e. everything after
the 7-character prefix) as a connector type. -/
def stationConnectors (tags : Tags) : List ConnectorInfo :=
  tags.filterMap (fun p =>
    if strStartsWith p.1 "socket:" then
      some { type := String.mk (p.1.data.drop 7)
           , count := if pyIsDigit p.2 then Sum.inl p.2 else Sum.inr 1 }
    else none)

/-- Connector filter (`if connector_types:` — both an absent and an
empty list disable the filter): pass when some extracted connector type
is in the requested list. -/
def connectorFilterPasses (connectorTypes : Option (List String))
    (connectors : List ConnectorInfo) : Bool :=
  match connectorTypes with
  | none => true
  | some l => if l.isEmpty then true else connectors.any (fun c => l.contains c.type)

/-- Power extraction: parse the `maxpower` tag when present; a parse
failure leaves the power `None`. -/
def powerOf (parse : String → Option ℚ) (tags : Tags) : Option ℚ :=
  match tagsGet tags "maxpower" with
  | some v => parse v
  | none => none

/-- Power filter (`if min_power is not None and (power is None or power
< min_power): continue`): with a threshold, an absent or unparseable
power fails; without one, every station passes. -/
def powerFilterPasses (minPower : Option ℚ) (power : Option ℚ) : Bool :=
  match minPower with
  | none => true
  | some t =>
      match power with
      | none => false
      | some p => decide (t ≤ p)

/-- An EV charging-station record (address and the remaining passthrough
string fields are carried in `tags`). -/
structure StationRecord where
  id : ℤ
  name : String
  stationOperator : String
  coordinates : Coords
  distance : ℚ
  connectors : List ConnectorInfo
  power : Option ℚ
  tags : Tags
deriving DecidableEq, Repr

/-- Record built by `find_ev_charging_stations` for a retained station
with raw distance `d` (the stored distance is rounded to one decimal). -/
def mkStationRecord (f : RawFeature) (c : Coords) (connectors : List ConnectorInfo)
    (power : Option ℚ) (d : ℚ) : StationRecord :=
  { id := f.id
  , name := (tagsGet f.tags "name").getD "Unnamed Charging Station"
  , stationOperator := (tagsGet f.tags "operator").getD "Unknown"
  , coordinates := c
  , distance := pyRound 1 d
  , connectors := connectors
  , power := power
  , tags := f.tags }

/-- Station loop of `find_ev_charging_stations`: skip on empty
coordinates dict, then on the connector filter, then on the power
filter; computing the distance of a retained station with a null
coordinate value raises a `TypeError` (uncaught, so the whole tool
fails). -/
def evScan (connectorTypes : Option (List String)) (minPower : Option ℚ)
    (parse : String → Option ℚ) (hav : ℚ → ℚ → ℚ) :
    List RawFeature → Except String (List StationRecord)
  | [] => .ok []
  | st :: rest =>
      match extractCoords st with
      | none => evScan connectorTypes minPower parse hav rest
      | some c =>
          let connectors := stationConnectors st.tags
          if connectorFilterPasses connectorTypes connectors then
            let power := powerOf parse st.tags
            if powerFilterPasses minPower power then
              match c.latitude, c.longitude with
              | some la, some lo =>
                  (evScan connectorTypes minPower parse hav rest).map
                    (fun out => mkStationRecord st c connectors power (hav la lo) :: out)
              | some _, none => .error "TypeError"
              | none, _ => .error "TypeError"
            else evScan connectorTypes minPower parse hav rest
          else evScan connectorTypes minPower parse hav rest

/-- The retention decision for one station, factored out of `evScan`:
coordinates dict truthy, connector filter, power filter. -/
def keepStation (connectorTypes : Option (List String)) (minPower : Option ℚ)
    (parse : String → Option ℚ) (f : RawFeature) : Bool :=
  (extractCoords f).isSome &&
  connectorFilterPasses connectorTypes (stationConnectors f.tags) &&
  powerFilterPasses minPower (powerOf parse f.tags)

/-- The `find_ev_charging_stations` result list: the retained records
sorted ascending by (rounded) distance. -/
def find_ev_charging_stations (stations : List RawFeature)
    (connectorTypes : Option (List String)) (minPower : Option ℚ)
    (parse : String → Option ℚ) (hav : ℚ → ℚ → ℚ) : Except String (List StationRecord) :=
  (evScan connectorTypes minPower parse hav stations).map
    (fun out => List.insertionSort (fun a b => a.distance ≤ b.distance) out)

/-! ## Example inputs used by the claim theorems and witnesses -/

/-- Example element carrying tags of two requested categories. -/
def dualTagPlace : RawFeature :=
  ⟨"node", 7, some 1, some 2, none, [("amenity", "cafe"), ("shop", "bakery")]⟩

/-- Example way element with a subcategory tag but neither own
coordinates nor a `center` field. -/
def coordlessWay : RawFeature :=
  ⟨"way", 1, none, none, none, [("amenity", "cafe")]⟩

/-- The two example locations from the specification. -/
def exampleLocations : List MeetLocation :=
  [⟨some (37.7749 : ℚ), some (-122.4194 : ℚ)⟩, ⟨some (37.3352 : ℚ), some (-121.8811 : ℚ)⟩]

/-- Concrete POI oracle for the C6 witness: no amenity nodes within
500 m, one cafe node at 1000 m. -/
def meetPoisOracle : ℚ → List RawFeature :=
  fun r => if r = 1000 then [⟨"node", 9, some 1, some 2, none, [("amenity", "cafe")]⟩] else []

/-- The result of the meeting-point example run. -/
def meetExampleResult : MeetingResult :=
  (suggest_meeting_point exampleLocations "cafe" meetPoisOracle).toOption.getD
    ⟨0, 0, [], "", 0, []⟩

/-- The per-category score as a function of the raw distances of the
kept features: 0 on an empty list, otherwise
`min(count/5,1)*5 + (5 - min(min_distance/radius,1)*5)`. -/
def scoreOfDistances (radius : ℚ) (distances : List ℚ) : ℚ :=
  match distances.min? with
  | none => 0
  | some m => catScoreFun radius distances.length m

/-- Route oracle for the C1 witness: `car` succeeds with a 600-second
route, every other mode fails. -/
def commuteOracle : String → Except String RouteData :=
  fun m =>
    if m = "car" then Except.ok ⟨[⟨some 10000, some 600, none, none⟩], []⟩
    else Except.error "boom"

/-- Route oracle for the C5 counterexample: `car` succeeds, any other
requested profile is rejected upstream. -/
def teleportOracle : String → Except String RouteData :=
  fun m =>
    if m = "car" then Except.ok ⟨[⟨some 5000, some 300, none, none⟩], []⟩
    else Except.error "Failed to get route: 400"

/-- Concrete float parser for the C9 witness (`float("50")` succeeds,
anything else raises `ValueError`). -/
def evParse : String → Option ℚ :=
  fun s => if s = "50" then some 50 else none

/-- Station with a parseable 50 kW `maxpower` tag. -/
def evStationGood : RawFeature := ⟨"node", 21, some 1, some 2, none, [("maxpower", "50")]⟩

/-- Station with an unparseable `maxpower` tag. -/
def evStationBad : RawFeature := ⟨"node", 22, some 3, some 4, none, [("maxpower", "fast")]⟩

/-- Station with no `maxpower` tag. -/
def evStationAbsent : RawFeature := ⟨"node", 23, some 5, some 6, none, []⟩

/-! ## Dict size lemmas -/

theorem innerSize_dictUpdate {β : Type} (inner : List (String × List β)) (k : String) (v : β) :
    innerSize (dictUpdate inner k [] (fun l => l ++ [v])) = innerSize inner + 1 := by
  induction inner with
  | nil => simp [dictUpdate, innerSize]
  | cons p rest ih =>
      by_cases h : p.1 = k
      · simp [dictUpdate, h, innerSize]
        ring
      · simp [dictUpdate, h, innerSize] at ih ⊢
        omega

theorem outerSize_dictUpdate {β : Type} (g : List (String × List (String × List β)))
    (k : String) (upd : List (String × List β) → List (String × List β))
    (hupd : ∀ inner, innerSize (upd inner) = innerSize inner + 1) :
    outerSize (dictUpdate g k [] upd) = outerSize g + 1 := by
  induction g with
  | nil =>
      have h := hupd []
      simp [innerSize] at h
      simp [dictUpdate, outerSize, innerSize, h]
  | cons p rest ih =>
      by_cases h : p.1 = k
      · simp [dictUpdate, h, outerSize, hupd]
        ring
      · simp [dictUpdate, h, outerSize] at ih ⊢
        omega


/-! ## Claim C3 — client not-connected guard -/

/-- Claim C3, counterexample: after `connect` followed by `disconnect`,
the session attribute is still set, so `geocode` does not fail fast with
a not-connected error; it proceeds to issue a network request on the
closed session. -/
theorem C3_counterexample_disconnect_not_guarded :
    OSMClient.geocodeGuard (OSMClient.disconnect (OSMClient.connect OSMClient.init)) =
      OpBehavior.issuesNetworkRequest ∧
    OpBehavior.issuesNetworkRequest ≠ OpBehavior.notConnectedError := by
  decide

/-- Claim C3 (amended): every upstream-client operation invoked while
`session` is `None` — in particular before `connect` has ever run —
fails fast with the "not connected" error; after `connect` the
operations proceed to issue network requests, and after `disconnect`
the session attribute remains set, so the guard does not fire and the
operations still proceed to issue a network request (on the closed
session) instead of failing fast. -/
theorem C3_client_guards (c : OSMClient) (hnew : c.session = none) :
    (c.geocodeGuard = .notConnectedError ∧
     c.reverseGeocodeGuard = .notConnectedError ∧
     c.getRouteGuard = .notConnectedError ∧
     c.getNearbyPoisGuard = .notConnectedError ∧
     c.searchFeaturesGuard = .notConnectedError) ∧
    (∀ d : OSMClient,
      (d.connect.geocodeGuard = .issuesNetworkRequest ∧
       d.connect.reverseGeocodeGuard = .issuesNetworkRequest ∧
       d.connect.getRouteGuard = .issuesNetworkRequest ∧
       d.connect.getNearbyPoisGuard = .issuesNetworkRequest ∧
       d.connect.searchFeaturesGuard = .issuesNetworkRequest) ∧
      (d.connect.disconnect.geocodeGuard = .issuesNetworkRequest ∧
       d.connect.disconnect.reverseGeocodeGuard = .issuesNetworkRequest ∧
       d.connect.disconnect.getRouteGuard = .issuesNetworkRequest ∧
       d.connect.disconnect.getNearbyPoisGuard = .issuesNetworkRequest ∧
       d.connect.disconnect.searchFeaturesGuard = .issuesNetworkRequest)) := by
  constructor
  · simp [OSMClient.geocodeGuard, OSMClient.reverseGeocodeGuard, OSMClient.getRouteGuard,
      OSMClient.getNearbyPoisGuard, OSMClient.searchFeaturesGuard, hnew]
  · intro d
    constructor
    · simp [OSMClient.connect, OSMClient.geocodeGuard, OSMClient.reverseGeocodeGuard,
        OSMClient.getRouteGuard, OSMClient.getNearbyPoisGuard, OSMClient.searchFeaturesGuard]
    · simp [OSMClient.connect, OSMClient.disconnect, OSMClient.geocodeGuard,
        OSMClient.reverseGeocodeGuard, OSMClient.getRouteGuard,
        OSMClient.getNearbyPoisGuard, OSMClient.searchFeaturesGuard]

/-- Witness for C3 at the freshly constructed client. -/
theorem C3_client_guards_witness :
    OSMClient.init.geocodeGuard = OpBehavior.notConnectedError ∧
    OSMClient.init.connect.disconnect.geocodeGuard = OpBehavior.issuesNetworkRequest :=
  ⟨(C3_client_guards OSMClient.init rfl).1.1,
   ((C3_client_guards OSMClient.init rfl).2 OSMClient.init).2.1⟩

/-! ## Claim C8 — bounding box from radius -/

/-- Claim C8, counterexample: at radius 0 (with latitude 37°, so
`cosLat > 0`), the computed box degenerates to the center point and
does not strictly contain it, refuting strict containment "for every
radius". -/
theorem C8_counterexample_zero_radius :
    (bboxFromRadius 37 (-122) 0 1).minLat = 37 ∧
    ¬ (bboxFromRadius 37 (-122) 0 1).minLat < 37 := by
  constructor
  · norm_num [bboxFromRadius]
  · norm_num [bboxFromRadius]

/-- Claim C8 (amended): for every center with `|lat| < 90°`
(equivalently `cosLat = cos(radians(lat)) > 0`) and every positive
radius, the conversion returns the box center ± (latDelta, lonDelta)
with `latDelta = radius/111000` and
`lonDelta = radius/(111000 * cosLat)`; the box strictly contains the
center, its half-height in degrees is exactly `radius/111000`
(≈ radius meters at 111000 m per degree), and its half-width
corresponds to `radius/cosLat` meters (the half-width in degrees times
`111000 * cosLat` meters per degree equals the radius). -/
theorem C8_bbox_from_radius (lat lon radius cosLat : ℚ)
    (hr : 0 < radius) (hc : 0 < cosLat) :
    bboxFromRadius lat lon radius cosLat =
      ⟨lon - radius / (111000 * cosLat), lat - radius / 111000,
       lon + radius / (111000 * cosLat), lat + radius / 111000⟩ ∧
    (bboxFromRadius lat lon radius cosLat).minLat < lat ∧
    lat < (bboxFromRadius lat lon radius cosLat).maxLat ∧
    (bboxFromRadius lat lon radius cosLat).minLon < lon ∧
    lon < (bboxFromRadius lat lon radius cosLat).maxLon ∧
    (bboxFromRadius lat lon radius cosLat).maxLat - lat = radius / 111000 ∧
    lat - (bboxFromRadius lat lon radius cosLat).minLat = radius / 111000 ∧
    ((bboxFromRadius lat lon radius cosLat).maxLon - lon) * (111000 * cosLat) = radius ∧
    (lon - (bboxFromRadius lat lon radius cosLat).minLon) * (111000 * cosLat) = radius := by
  have hlat : (0 : ℚ) < radius / 111000 := by positivity
  have hlon : (0 : ℚ) < radius / (111000 * cosLat) := by positivity
  have hmul : (111000 : ℚ) * cosLat ≠ 0 := by positivity
  refine ⟨rfl, ?_, ?_, ?_, ?_, ?_, ?_, ?_, ?_⟩ <;>
    simp [bboxFromRadius]
  · linarith
  · linarith
  · linarith
  · linarith
  · field_simp
  · field_simp

/-- Witness for C8 at latitude 0 (cosLat = 1), radius 111000 m. -/
theorem C8_bbox_from_radius_witness :
    (bboxFromRadius 0 0 111000 1).minLat < 0 ∧
    (0 : ℚ) < (bboxFromRadius 0 0 111000 1).maxLat ∧
    (bboxFromRadius 0 0 111000 1).maxLat - 0 = 111000 / 111000 :=
  ⟨(C8_bbox_from_radius 0 0 111000 1 (by norm_num) (by norm_num)).2.1,
   (C8_bbox_from_radius 0 0 111000 1 (by norm_num) (by norm_num)).2.2.1,
   (C8_bbox_from_radius 0 0 111000 1 (by norm_num) (by norm_num)).2.2.2.2.2.1⟩

/-! ## Grouping size lemmas -/

theorem exploreStep_size (category : String) (acc : List (String × List ExploreRecord))
    (f : RawFeature) :
    innerSize (exploreStep category acc f) =
      innerSize acc + (if (exploreSubcatOf category f).isSome then 1 else 0) := by
  unfold exploreStep
  cases h : exploreSubcatOf category f with
  | none => simp [h]
  | some sub => simp [h, innerSize_dictUpdate]

theorem foldl_exploreStep_size (category : String) (fs : List RawFeature)
    (acc : List (String × List ExploreRecord)) :
    innerSize (fs.foldl (exploreStep category) acc) =
      innerSize acc + fs.countP (fun f => (exploreSubcatOf category f).isSome) := by
  induction fs generalizing acc with
  | nil => simp
  | cons f rest ih =>
      rw [List.foldl_cons, ih, exploreStep_size, List.countP_cons]
      omega

theorem exploreGroup_size (category : String) (fs : List RawFeature) :
    innerSize (exploreGroup category fs) =
      fs.countP (fun f => (exploreSubcatOf category f).isSome) := by
  rw [exploreGroup, foldl_exploreStep_size]
  simp [innerSize]

theorem nearbyAddPlace_size (acc : List (String × List (String × List NearbyPlaceInfo)))
    (category sub : String) (v : NearbyPlaceInfo) :
    outerSize (nearbyAddPlace acc category sub v) = outerSize acc + 1 := by
  unfold nearbyAddPlace
  exact outerSize_dictUpdate acc category _ (fun inner => innerSize_dictUpdate inner sub v)

theorem nearbyCatStep_size (place : RawFeature)
    (acc2 : List (String × List (String × List NearbyPlaceInfo))) (category : String) :
    outerSize (nearbyCatStep place acc2 category) =
      outerSize acc2 + (if (tagsGet place.tags category).isSome then 1 else 0) := by
  unfold nearbyCatStep
  cases h : tagsGet place.tags category with
  | none => simp [h]
  | some sub => simp [h, nearbyAddPlace_size]

theorem nearbyPlaceStep_size (categories : List String)
    (acc : List (String × List (String × List NearbyPlaceInfo))) (place : RawFeature) :
    outerSize (nearbyPlaceStep categories acc place) =
      outerSize acc + categories.countP (fun c => (tagsGet place.tags c).isSome) := by
  unfold nearbyPlaceStep
  induction categories generalizing acc with
  | nil => simp
  | cons c rest ih =>
      rw [List.foldl_cons, ih, nearbyCatStep_size, List.countP_cons]
      omega

theorem foldl_nearbyPlaceStep_size (categories : List String) (places : List RawFeature)
    (acc : List (String × List (String × List NearbyPlaceInfo))) :
    outerSize (places.foldl (nearbyPlaceStep categories) acc) =
      outerSize acc +
        (places.map (fun p => categories.countP (fun c => (tagsGet p.tags c).isSome))).sum := by
  induction places generalizing acc with
  | nil => simp
  | cons p rest ih =>
      rw [List.foldl_cons, ih, nearbyPlaceStep_size]
      simp
      omega

/-! ## Claim C10 — multi-category counting in find_nearby_places -/

/-- Claim C10: an element whose tags match several requested categories
is appended to each matching category's group and counted once per
matching category: `total_count` is the sum over the truncated upstream
sequence of the number of matching categories per element, and with one
dual-tagged element and limit 1 it equals 2, exceeding both the limit
and the number of distinct retained places. -/
theorem C10_nearby_total_counts_per_category (places : List RawFeature)
    (categories : List String) (limit : ℕ) :
    (find_nearby_places_total places categories limit =
      ((places.take limit).map
        (fun p => categories.countP (fun c => (tagsGet p.tags c).isSome))).sum) ∧
    (find_nearby_places_grouped [dualTagPlace] ["amenity", "shop"] 1 =
      [("amenity", [("cafe", [mkNearbyPlaceInfo dualTagPlace])]),
       ("shop", [("bakery", [mkNearbyPlaceInfo dualTagPlace])])]) ∧
    find_nearby_places_total [dualTagPlace] ["amenity", "shop"] 1 = 2 ∧ 1 < 2 := by
  refine ⟨?_, by decide, by decide, by decide⟩
  unfold find_nearby_places_total find_nearby_places_grouped
  rw [foldl_nearbyPlaceStep_size]
  simp [outerSize]

/-! ## Claim C7 — explore_area partial-failure totals -/

theorem outerSize_explore_map (cats : List (String × Except String (List RawFeature))) :
    outerSize (cats.map (fun p =>
      (p.1, match p.2 with
            | .ok fs => exploreGroup p.1 fs
            | .error _ => []))) =
      (cats.map (fun p =>
        match p.2 with
        | .ok fs => fs.countP (fun f => (exploreSubcatOf p.1 f).isSome)
        | .error _ => 0)).sum := by
  induction cats with
  | nil => simp [outerSize]
  | cons p rest ih =>
      rw [List.map_cons, List.map_cons, List.sum_cons]
      have hcons : ∀ (a : String × List (String × List ExploreRecord))
          (l : List (String × List (String × List ExploreRecord))),
          outerSize (a :: l) = innerSize a.2 + outerSize l := by
        intro a l
        simp [outerSize]
      rw [hcons, ih]
      rcases p with ⟨name, out⟩
      cases out with
      | ok fs => simp [exploreGroup_size]
      | error e => simp [innerSize]

/-- Claim C7: `explore_area` is a total function of its per-category
outcomes (it never raises); its `total_features` is the sum over the
retained categories of the number of grouped features — a failed
category contributing 0 — hence 0 when every category failed; and a
failing final reverse geocode yields the placeholder error object as
the `address`. -/
theorem C7_explore_area_partial_failure
    (cats : List (String × Except String (List RawFeature)))
    (revgeo : Except String Tags) :
    ((explore_area cats revgeo).total_features =
      (cats.map (fun p =>
        match p.2 with
        | .ok fs => fs.countP (fun f => (exploreSubcatOf p.1 f).isSome)
        | .error _ => 0)).sum) ∧
    ((∀ p ∈ cats, ∃ e, p.2 = Except.error e) →
      (explore_area cats revgeo).total_features = 0) ∧
    (∀ e, revgeo = Except.error e →
      (explore_area cats revgeo).address =
        ExploreAddress.errorObj "Could not retrieve address information") := by
  refine ⟨?_, ?_, ?_⟩
  · show outerSize _ = _
    exact outerSize_explore_map cats
  · intro hall
    show outerSize _ = 0
    rw [outerSize_explore_map cats]
    apply List.sum_eq_zero
    intro x hx
    rw [List.mem_map] at hx
    obtain ⟨p, hp, hpx⟩ := hx
    obtain ⟨e, he⟩ := hall p hp
    rw [he] at hpx
    exact hpx.symm
  · intro e he
    simp [explore_area, he]

/-- Witness for C7: two categories, both failing, and a failing reverse
geocode — the total is 0 and the address is the placeholder object. -/
theorem C7_explore_area_partial_failure_witness :
    (explore_area [("amenity", Except.error "HTTP 500"), ("shop", Except.error "HTTP 502")]
        (Except.error "HTTP 503")).total_features = 0 ∧
    (explore_area [("amenity", Except.error "HTTP 500"), ("shop", Except.error "HTTP 502")]
        (Except.error "HTTP 503")).address =
      ExploreAddress.errorObj "Could not retrieve address information" :=
  ⟨(C7_explore_area_partial_failure _ _).2.1
      (by intro p hp; fin_cases hp <;> exact ⟨_, rfl⟩),
   (C7_explore_area_partial_failure _ _).2.2 _ rfl⟩

/-! ## Claim C2 — coordinate handling of the result-shaping tools -/


theorem search_category_eq_filter (category : String) (features : List RawFeature) :
    search_category category features =
      (features.filter (fun f => (extractCoords f).isSome)).map
        (fun f => mkSearchRecord category f ((extractCoords f).getD ⟨none, none⟩)) := by
  induction features with
  | nil => rfl
  | cons f rest ih =>
      simp only [search_category] at ih
      cases h : extractCoords f with
      | none =>
          simp [search_category, List.filterMap_cons, h, ih, List.filter_cons]
      | some c =>
          simp [search_category, List.filterMap_cons, h, ih, List.filter_cons]

theorem neighborhoodScan_ok (hav : ℚ → ℚ → ℚ) (fs : List RawFeature)
    (out : List (NbFeature × ℚ)) (h : neighborhoodScan hav fs = Except.ok out) :
    (∀ pr ∈ out, pr.1.coordinates.latitude.isSome ∧ pr.1.coordinates.longitude.isSome) ∧
    out.length = (fs.filter (fun f => (extractCoords f).isSome)).length := by
  induction fs generalizing out with
  | nil =>
      simp [neighborhoodScan] at h
      subst h
      simp
  | cons f rest ih =>
      rw [neighborhoodScan] at h
      split at h
      · rename_i hc
        have hr := ih out h
        constructor
        · exact hr.1
        · rw [List.filter_cons]
          simp [hc, hr.2]
      · rename_i c hc
        split at h
        · rename_i la lo hla hlo
          cases hrest : neighborhoodScan hav rest with
          | error e =>
              rw [hrest] at h
              simp [Except.map] at h
          | ok outRest =>
              rw [hrest] at h
              simp [Except.map] at h
              have hr := ih outRest hrest
              constructor
              · intro pr hpr
                rw [← h] at hpr
                rcases List.mem_cons.mp hpr with hpr1 | hpr1
                · subst hpr1
                  simp [mkNbFeature, hla, hlo]
                · exact hr.1 pr hpr1
              · rw [← h, List.filter_cons]
                simp [hc, hr.2]
        · simp at h
        · simp at h

/-- Claim C2, counterexample: `explore_area` does not drop a feature
that is neither a node nor carries a `center` field — the feature is
grouped with an empty `coordinates` object (`coordinates = none` in the
embedding models the empty dict `{}`), so the claim fails for
`explore_area`. -/
theorem C2_counterexample_explore_keeps_coordless :
    extractCoords coordlessWay = none ∧
    exploreGroup "amenity" [coordlessWay] =
      [("cafe", [{ id := 1, name := "Unnamed", coordinates := none, type := "way",
                   tags := [("amenity", "cafe")] }])] := by
  constructor
  · decide
  · decide

/-- Claim C2 (amended): `search_category` and `analyze_neighborhood`
drop every feature that is not a node and has no `center` field:
`search_category` returns exactly the records of the features with a
truthy coordinates dict, and in a successfully analyzed neighborhood
category the kept entries are exactly as numerous as those features and
all carry non-null coordinate values. `explore_area` has no such skip:
its per-category grouping retains every feature with a truthy
subcategory tag, with or without coordinates (so a coordinate-less
feature appears with an empty coordinates object). -/
theorem C2_coordinate_dropping (category : String) (features : List RawFeature)
    (hav : ℚ → ℚ → ℚ) :
    (search_category category features =
      (features.filter (fun f => (extractCoords f).isSome)).map
        (fun f => mkSearchRecord category f ((extractCoords f).getD ⟨none, none⟩))) ∧
    (∀ r ∈ search_category category features, ∃ f ∈ features, extractCoords f = some r.coordinates) ∧
    (∀ out, neighborhoodScan hav features = Except.ok out →
      (∀ pr ∈ out, pr.1.coordinates.latitude.isSome ∧ pr.1.coordinates.longitude.isSome) ∧
      out.length = (features.filter (fun f => (extractCoords f).isSome)).length) ∧
    (innerSize (exploreGroup category features) =
      features.countP (fun f => (exploreSubcatOf category f).isSome)) := by
  refine ⟨search_category_eq_filter category features, ?_, ?_, exploreGroup_size category features⟩
  · intro r hr
    unfold search_category at hr
    rw [List.mem_filterMap] at hr
    obtain ⟨f, hf, hout⟩ := hr
    cases hc : extractCoords f with
    | none => rw [hc] at hout; simp at hout
    | some c =>
        rw [hc] at hout
        simp at hout
        refine ⟨f, hf, ?_⟩
        rw [hc, ← hout]
        rfl
  · intro out hout
    exact neighborhoodScan_ok hav features out hout

/-- Witness for C2 at a concrete node feature. -/
theorem C2_coordinate_dropping_witness :
    ((mkNbFeature ⟨"node", 3, some 10, some 20, none, []⟩ ⟨some 10, some 20⟩ 0).coordinates.latitude.isSome ∧
     (mkNbFeature ⟨"node", 3, some 10, some 20, none, []⟩ ⟨some 10, some 20⟩ 0).coordinates.longitude.isSome) ∧
    ([(mkNbFeature ⟨"node", 3, some 10, some 20, none, []⟩ ⟨some 10, some 20⟩ 0, (0 : ℚ))].length =
      ([(⟨"node", 3, some 10, some 20, none, []⟩ : RawFeature)].filter
        (fun f => (extractCoords f).isSome)).length) := by
  have h := (C2_coordinate_dropping "amenity" [⟨"node", 3, some 10, some 20, none, []⟩]
    (fun _ _ => 0)).2.2.1
    [(mkNbFeature ⟨"node", 3, some 10, some 20, none, []⟩ ⟨some 10, some 20⟩ 0, (0 : ℚ))]
    (by rfl)
  exact ⟨h.1 _ (List.mem_singleton.mpr rfl), h.2⟩

/-! ## Claim C6 — suggest_meeting_point -/

/-- Claim C6: fewer than two locations fail with the invalid-argument
error; on success the center is the arithmetic mean of the latitudes
and longitudes (at the specification's example pair,
(37.55505, -122.15025)); when the 500 m search yields no venue of the
requested type exactly one 1000 m search follows; the result lists at
most the first five matches and `total_options` counts all matches,
hence is at least the length of the returned list. -/
theorem C6_suggest_meeting_point (locations : List MeetLocation) (venueType : String)
    (poisAt : ℚ → List RawFeature) :
    (locations.length < 2 →
      suggest_meeting_point locations venueType poisAt =
        Except.error "Need at least two locations to suggest a meeting point") ∧
    (∀ res, suggest_meeting_point locations venueType poisAt = Except.ok res →
      2 ≤ locations.length ∧
      res.centerLat = (locations.map (fun l => l.latitude.getD 0)).sum / (locations.length : ℚ) ∧
      res.centerLon = (locations.map (fun l => l.longitude.getD 0)).sum / (locations.length : ℚ) ∧
      (matchingVenues (poisAt 500) venueType = [] → res.queriedRadii = [500, 1000]) ∧
      (matchingVenues (poisAt 500) venueType ≠ [] → res.queriedRadii = [500]) ∧
      res.suggested_venues =
        (if (matchingVenues (poisAt 500) venueType).isEmpty
         then matchingVenues (poisAt 1000) venueType
         else matchingVenues (poisAt 500) venueType).take 5 ∧
      res.total_options =
        (if (matchingVenues (poisAt 500) venueType).isEmpty
         then matchingVenues (poisAt 1000) venueType
         else matchingVenues (poisAt 500) venueType).length ∧
      res.suggested_venues.length ≤ 5 ∧
      res.suggested_venues.length ≤ res.total_options) ∧
    (∀ res, suggest_meeting_point exampleLocations venueType poisAt = Except.ok res →
      res.centerLat = 37.55505 ∧ res.centerLon = -122.15025) := by
  refine ⟨?_, ?_, ?_⟩
  · intro hlen
    simp [suggest_meeting_point, hlen]
  · intro res h
    rw [suggest_meeting_point] at h
    split at h
    · exact absurd h (by simp)
    · rename_i hlen
      simp only [Except.ok.injEq] at h
      subst h
      refine ⟨by omega, rfl, rfl, ?_, ?_, rfl, rfl, ?_, ?_⟩
      · intro hfe
        simp [hfe]
      · intro hne
        have : (matchingVenues (poisAt 500) venueType).isEmpty = false := by
          cases hl : (matchingVenues (poisAt 500) venueType).isEmpty
          · rfl
          · exact absurd (List.isEmpty_iff.mp hl) hne
        simp [this]
      · simp [List.length_take]
      · simp [List.length_take]
  · intro res h
    rw [suggest_meeting_point] at h
    norm_num [exampleLocations] at h
    constructor <;> rw [← h] <;> norm_num

/-- Witness for C6 at the specification's example locations, with a
venue found only by the expanded search. -/
theorem C6_suggest_meeting_point_witness :
    meetExampleResult.centerLat = 37.55505 ∧
    meetExampleResult.centerLon = -122.15025 ∧
    meetExampleResult.queriedRadii = [500, 1000] ∧
    meetExampleResult.suggested_venues.length ≤ meetExampleResult.total_options := by
  have hok : suggest_meeting_point exampleLocations "cafe" meetPoisOracle =
      Except.ok meetExampleResult := by rfl
  have hmain :=
    (C6_suggest_meeting_point exampleLocations "cafe" meetPoisOracle).2.1 meetExampleResult hok
  have hex :=
    (C6_suggest_meeting_point exampleLocations "cafe" meetPoisOracle).2.2 meetExampleResult hok
  refine ⟨hex.1, hex.2, ?_, hmain.2.2.2.2.2.2.2.2⟩
  exact hmain.2.2.2.1 (by rfl)

/-! ## Claim C9 — EV charging-station power filter -/

theorem powerFilter_inv (t : ℚ) (parse : String → Option ℚ) (tags : Tags)
    (h : powerFilterPasses (some t) (powerOf parse tags) = true) :
    ∃ v p, tagsGet tags "maxpower" = some v ∧ parse v = some p ∧ t ≤ p := by
  unfold powerFilterPasses at h
  cases hp : powerOf parse tags with
  | none => rw [hp] at h; simp at h
  | some p =>
      rw [hp] at h
      simp at h
      unfold powerOf at hp
      cases hv : tagsGet tags "maxpower" with
      | none => rw [hv] at hp; simp at hp
      | some v =>
          rw [hv] at hp
          exact ⟨v, p, rfl, hp, h⟩

theorem evScan_ok_power (connectorTypes : Option (List String)) (minPower : Option ℚ)
    (parse : String → Option ℚ) (hav : ℚ → ℚ → ℚ) (fs : List RawFeature)
    (out : List StationRecord)
    (h : evScan connectorTypes minPower parse hav fs = Except.ok out) :
    ∀ r ∈ out, powerFilterPasses minPower (powerOf parse r.tags) = true := by
  induction fs generalizing out with
  | nil =>
      simp [evScan] at h
      subst h
      simp
  | cons f rest ih =>
      rw [evScan] at h
      split at h
      · exact ih out h
      · rename_i c hc
        split at h
        · rename_i la lo hla hlo
          simp only [] at h
          split at h
          · rename_i hconn
            split at h
            · rename_i hpow
              cases hrest : evScan connectorTypes minPower parse hav rest with
              | error e => rw [hrest] at h; simp [Except.map] at h
              | ok outRest =>
                  rw [hrest] at h
                  simp [Except.map] at h
                  intro r hr
                  rw [← h] at hr
                  rcases List.mem_cons.mp hr with hr1 | hr1
                  · subst hr1
                    simpa [mkStationRecord] using hpow
                  · exact ih outRest hrest r hr1
            · exact ih out h
          · exact ih out h
        · simp only [] at h
          split at h
          · split at h
            · simp at h
            · exact ih out h
          · exact ih out h
        · simp only [] at h
          split at h
          · split at h
            · simp at h
            · exact ih out h
          · exact ih out h

theorem evScan_ok_kept (connectorTypes : Option (List String)) (minPower : Option ℚ)
    (parse : String → Option ℚ) (hav : ℚ → ℚ → ℚ) (fs : List RawFeature)
    (out : List StationRecord)
    (h : evScan connectorTypes minPower parse hav fs = Except.ok out) :
    ∀ f ∈ fs, keepStation connectorTypes minPower parse f = true →
      ∃ r ∈ out, r.id = f.id ∧ r.tags = f.tags := by
  induction fs generalizing out with
  | nil => simp
  | cons f rest ih =>
      intro g hg hkeep
      rw [evScan] at h
      rcases List.mem_cons.mp hg with hg1 | hg1
      · subst hg1
        unfold keepStation at hkeep
        simp only [Bool.and_eq_true] at hkeep
        obtain ⟨⟨hcoords, hconn⟩, hpow⟩ := hkeep
        split at h
        · rename_i hc
          rw [hc] at hcoords
          simp at hcoords
        · rename_i c hc
          split at h
          · rename_i la lo hla hlo
            simp only [] at h
            rw [if_pos hconn, if_pos hpow] at h
            cases hrest : evScan connectorTypes minPower parse hav rest with
            | error e => rw [hrest] at h; simp [Except.map] at h
            | ok outRest =>
                rw [hrest] at h
                simp [Except.map] at h
                refine ⟨mkStationRecord g c (stationConnectors g.tags)
                  (powerOf parse g.tags) (hav la lo), ?_, rfl, rfl⟩
                rw [← h]
                exact List.mem_cons_self _ _
          · simp only [] at h
            rw [if_pos hconn, if_pos hpow] at h
            simp at h
          · simp only [] at h
            rw [if_pos hconn, if_pos hpow] at h
            simp at h
      · have hnext : ∀ out2, evScan connectorTypes minPower parse hav rest = Except.ok out2 →
            ∃ r ∈ out2, r.id = g.id ∧ r.tags = g.tags := by
          intro out2 h2
          exact ih out2 h2 g hg1 hkeep
        split at h
        · exact hnext out h
        · rename_i c hc
          split at h
          · rename_i la lo hla hlo
            simp only [] at h
            split at h
            · split at h
              · cases hrest : evScan connectorTypes minPower parse hav rest with
                | error e => rw [hrest] at h; simp [Except.map] at h
                | ok outRest =>
                    rw [hrest] at h
                    simp [Except.map] at h
                    obtain ⟨r, hrmem, hrid, hrtags⟩ := hnext outRest hrest
                    refine ⟨r, ?_, hrid, hrtags⟩
                    rw [← h]
                    exact List.mem_cons_of_mem _ hrmem
              · exact hnext out h
            · exact hnext out h
          · simp only [] at h
            split at h
            · split at h
              · simp at h
              · exact hnext out h
            · exact hnext out h
          · simp only [] at h
            split at h
            · split at h
              · simp at h
              · exact hnext out h
            · exact hnext out h

/-- Claim C9: with a minimum-power threshold, every returned station has
a `maxpower` tag that parses to a numeric power at or above the
threshold (so stations with an absent or unparseable tag are excluded);
without a threshold the retention decision reduces to the coordinate
and connector checks alone, and every station passing those checks
appears in a successful result regardless of its power tag. -/
theorem C9_ev_power_filter (stations : List RawFeature) (connectorTypes : Option (List String))
    (parse : String → Option ℚ) (hav : ℚ → ℚ → ℚ) :
    (∀ t out, find_ev_charging_stations stations connectorTypes (some t) parse hav =
        Except.ok out →
      ∀ r ∈ out, ∃ v p, tagsGet r.tags "maxpower" = some v ∧ parse v = some p ∧ t ≤ p) ∧
    (∀ f, keepStation connectorTypes none parse f =
      ((extractCoords f).isSome && connectorFilterPasses connectorTypes (stationConnectors f.tags))) ∧
    (∀ out, find_ev_charging_stations stations connectorTypes none parse hav = Except.ok out →
      ∀ f ∈ stations, keepStation connectorTypes none parse f = true →
        ∃ r ∈ out, r.id = f.id ∧ r.tags = f.tags) := by
  refine ⟨?_, ?_, ?_⟩
  · intro t out h r hr
    unfold find_ev_charging_stations at h
    cases hscan : evScan connectorTypes (some t) parse hav stations with
    | error e => rw [hscan] at h; simp [Except.map] at h
    | ok outScan =>
        rw [hscan] at h
        simp [Except.map] at h
        have hperm := List.perm_insertionSort
          (fun a b : StationRecord => a.distance ≤ b.distance) outScan
        have hr2 : r ∈ outScan := by
          rw [← h] at hr
          exact hperm.mem_iff.mp hr
        exact powerFilter_inv t parse r.tags (evScan_ok_power _ _ _ _ _ _ hscan r hr2)
  · intro f
    unfold keepStation powerFilterPasses
    simp
  · intro out h f hf hkeep
    unfold find_ev_charging_stations at h
    cases hscan : evScan connectorTypes none parse hav stations with
    | error e => rw [hscan] at h; simp [Except.map] at h
    | ok outScan =>
        rw [hscan] at h
        simp [Except.map] at h
        obtain ⟨r, hrmem, hrid, hrtags⟩ := evScan_ok_kept _ _ _ _ _ _ hscan f hf hkeep
        have hperm := List.perm_insertionSort
          (fun a b : StationRecord => a.distance ≤ b.distance) outScan
        refine ⟨r, ?_, hrid, hrtags⟩
        rw [← h]
        exact hperm.mem_iff.mpr hrmem

/-- Witness for C9: with threshold 22 kW only the parseable 50 kW
station survives, and the theorem recovers its parsed power. -/
theorem C9_ev_power_filter_witness :
    ∃ v p, tagsGet (mkStationRecord evStationGood ⟨some 1, some 2⟩ [] (some 50) 0).tags
        "maxpower" = some v ∧ evParse v = some p ∧ (22 : ℚ) ≤ p := by
  have h := (C9_ev_power_filter [evStationGood, evStationBad, evStationAbsent] none evParse
      (fun _ _ => 0)).1 22
      [mkStationRecord evStationGood ⟨some 1, some 2⟩ [] (some 50) 0] (by rfl)
  exact h _ (List.mem_singleton.mpr rfl)

/-! ## Claim C4 — neighborhood category scoring -/

theorem catScoreFun_ge_one (radius m : ℚ) (count : ℕ) (hc : 1 ≤ count) :
    1 ≤ catScoreFun radius count m := by
  unfold catScoreFun
  have h1 : (1 : ℚ) / 5 ≤ min ((count : ℚ) / 5) 1 := by
    apply le_min
    · have : (1 : ℚ) ≤ (count : ℚ) := by exact_mod_cast hc
      linarith
    · norm_num
  have h2 : min (m / radius) 1 ≤ 1 := min_le_right _ _
  linarith

theorem catScoreFun_nonneg (radius m : ℚ) (count : ℕ) :
    0 ≤ catScoreFun radius count m := by
  unfold catScoreFun
  have h1 : (0 : ℚ) ≤ min ((count : ℚ) / 5) 1 := by
    apply le_min
    · positivity
    · norm_num
  have h2 : min (m / radius) 1 ≤ 1 := min_le_right _ _
  linarith

theorem catScoreFun_le_ten (radius m : ℚ) (count : ℕ) (hr : 0 < radius) (hm : 0 ≤ m) :
    catScoreFun radius count m ≤ 10 := by
  unfold catScoreFun
  have h1 : min ((count : ℚ) / 5) 1 ≤ 1 := min_le_right _ _
  have h2 : (0 : ℚ) ≤ min (m / radius) 1 := by
    apply le_min
    · positivity
    · norm_num
  linarith

/-- Claim C4: in `analyze_neighborhood` the per-category score is the
`scoreOfDistances` of the raw distances of the kept features; it is 0
exactly when the count is 0 and at least 1 otherwise; for non-negative
distances it lies in [0, 10]; it is non-decreasing in the count and
non-decreasing as the minimum distance decreases (for a positive
radius); and the overall score is the average of the per-category
scores rounded to one decimal. -/
theorem C4_neighborhood_scoring (radius : ℚ) (hav : ℚ → ℚ → ℚ) (fs : List RawFeature)
    (cats : List (Except String (List RawFeature))) (hr : 0 < radius) :
    (∀ data, categoryAnalysis radius hav fs = Except.ok data →
      ∃ out, neighborhoodScan hav fs = Except.ok out ∧
        data.count = out.length ∧
        data.score = scoreOfDistances radius (out.map (fun p => p.2))) ∧
    (∀ ds : List ℚ, ∀ m, ds.min? = some m →
      scoreOfDistances radius ds = catScoreFun radius ds.length m) ∧
    (∀ ds : List ℚ, scoreOfDistances radius ds = 0 ↔ ds.length = 0) ∧
    (∀ ds : List ℚ, (∀ d ∈ ds, 0 ≤ d) →
      0 ≤ scoreOfDistances radius ds ∧ scoreOfDistances radius ds ≤ 10) ∧
    (∀ (c c' : ℕ) (m : ℚ), c ≤ c' → catScoreFun radius c m ≤ catScoreFun radius c' m) ∧
    (∀ (c : ℕ) (m m' : ℚ), m' ≤ m → catScoreFun radius c m ≤ catScoreFun radius c m') ∧
    (cats ≠ [] → overallScore radius hav cats =
      pyRound 1 ((cats.map (fun fetch => (categoryOutcome radius hav fetch).2)).sum /
        (cats.length : ℚ))) := by
  refine ⟨?_, ?_, ?_, ?_, ?_, ?_, ?_⟩
  · intro data h
    unfold categoryAnalysis at h
    cases hscan : neighborhoodScan hav fs with
    | error e => rw [hscan] at h; simp [Except.map] at h
    | ok out =>
        rw [hscan] at h
        simp [Except.map] at h
        refine ⟨out, rfl, ?_⟩
        rw [← h]
        refine ⟨by simp, ?_⟩
        simp only [scoreOfDistances, List.length_map]
  · intro ds m hm
    simp [scoreOfDistances, hm]
  · intro ds
    constructor
    · intro h0
      by_contra hne
      have hlen : 1 ≤ ds.length := by omega
      have hnil : ds ≠ [] := by
        intro hd
        rw [hd] at hlen
        simp at hlen
      cases hm : ds.min? with
      | none =>
          rw [List.min?_eq_none_iff] at hm
          exact hnil hm
      | some m =>
          have := catScoreFun_ge_one radius m ds.length hlen
          rw [scoreOfDistances, hm] at h0
          simp at h0
          linarith
    · intro hlen
      have : ds = [] := List.length_eq_zero.mp hlen
      subst this
      rfl
  · intro ds hds
    cases hm : ds.min? with
    | none =>
        rw [scoreOfDistances, hm]
        norm_num
    | some m =>
        have hmem : m ∈ ds := List.min?_mem min_choice hm
        have hm0 : 0 ≤ m := hds m hmem
        rw [scoreOfDistances, hm]
        exact ⟨catScoreFun_nonneg radius m ds.length,
          catScoreFun_le_ten radius m ds.length hr hm0⟩
  · intro c c' m hcc
    unfold catScoreFun
    have h1 : min ((c : ℚ) / 5) 1 ≤ min ((c' : ℚ) / 5) 1 := by
      apply min_le_min _ le_rfl
      have : (c : ℚ) ≤ (c' : ℚ) := by exact_mod_cast hcc
      linarith
    linarith
  · intro c m m' hmm
    unfold catScoreFun
    have h1 : min (m' / radius) 1 ≤ min (m / radius) 1 := by
      apply min_le_min _ le_rfl
      gcongr
    linarith
  · intro hne
    unfold overallScore neighborhoodScores
    have hemp : (cats.map (fun fetch => (categoryOutcome radius hav fetch).2)).isEmpty = false := by
      cases hc : cats with
      | nil => exact absurd hc hne
      | cons a l => simp [hc]
    simp only [hemp]
    simp

/-- Witness for C4 at radius 1000 with distances 100 and 200 and a
single failing category. -/
theorem C4_neighborhood_scoring_witness :
    scoreOfDistances 1000 [100, 200] = catScoreFun 1000 2 100 ∧
    (0 ≤ scoreOfDistances 1000 [100, 200] ∧ scoreOfDistances 1000 [100, 200] ≤ 10) ∧
    overallScore 1000 (fun _ _ => 0) [Except.error "HTTP 500"] =
      pyRound 1
        ((([Except.error "HTTP 500"] : List (Except String (List RawFeature))).map
            (fun fetch => (categoryOutcome 1000 (fun _ _ => 0) fetch).2)).sum /
          ((([Except.error "HTTP 500"] : List (Except String (List RawFeature))).length : ℚ))) := by
  have h := C4_neighborhood_scoring 1000 (fun _ _ => 0) []
    [Except.error "HTTP 500"] (by norm_num)
  exact ⟨h.2.1 [100, 200] 100 (by decide),
         h.2.2.2.1 [100, 200] (by decide),
         h.2.2.2.2.2.2 (by simp)⟩

/-! ## Claim C1 — commute analysis failure handling -/

theorem commuteEntries_shape (modes : List String)
    (routeFor : String → Except String RouteData) :
    ∀ e ∈ commuteEntries modes routeFor,
      (e.duration_minutes = none ∧ e.error.isSome) ∨
      (e.duration_minutes.isSome ∧ e.error = none) := by
  induction modes with
  | nil => simp [commuteEntries]
  | cons m rest ih =>
      intro e he
      rw [commuteEntries, List.foldr_cons] at he
      rcases List.mem_append.mp he with hb | hb
      · cases hroute : routeFor m with
        | error msg =>
            rw [hroute] at hb
            simp at hb
            subst hb
            left
            simp [errorEntry]
        | ok data =>
            rw [hroute] at hb
            have hb2 : e ∈ (match data.routes with
              | [] => ([] : List CommuteEntry)
              | r :: _ => [successEntry m r]) := hb
            cases hroutes : data.routes with
            | nil => rw [hroutes] at hb2; simp at hb2
            | cons r tail =>
                rw [hroutes] at hb2
                simp at hb2
                subst hb2
                right
                simp [successEntry]
      · exact ih e hb

theorem commuteEntries_mode_mem (modes : List String)
    (routeFor : String → Except String RouteData) :
    ∀ e ∈ commuteEntries modes routeFor, e.mode ∈ modes := by
  induction modes with
  | nil => simp [commuteEntries]
  | cons m rest ih =>
      intro e he
      rw [commuteEntries, List.foldr_cons] at he
      rcases List.mem_append.mp he with hb | hb
      · cases hroute : routeFor m with
        | error msg =>
            rw [hroute] at hb
            simp at hb
            subst hb
            simp [errorEntry]
        | ok data =>
            rw [hroute] at hb
            have hb2 : e ∈ (match data.routes with
              | [] => ([] : List CommuteEntry)
              | r :: _ => [successEntry m r]) := hb
            cases hroutes : data.routes with
            | nil => rw [hroutes] at hb2; simp at hb2
            | cons r tail =>
                rw [hroutes] at hb2
                simp at hb2
                subst hb2
                simp [successEntry]
      · exact List.mem_cons_of_mem m (ih e hb)

theorem commuteEntries_error_mem (modes : List String)
    (routeFor : String → Except String RouteData) (m : String) (msg : String)
    (hm : m ∈ modes) (hr : routeFor m = Except.error msg) :
    errorEntry m msg ∈ commuteEntries modes routeFor := by
  induction modes with
  | nil => simp at hm
  | cons m0 rest ih =>
      rw [commuteEntries, List.foldr_cons]
      rcases List.mem_cons.mp hm with hm1 | hm1
      · subst hm1
        rw [hr]
        simp
      · apply List.mem_append.mpr
        right
        exact ih hm1

theorem commuteEntries_all_failed (modes : List String)
    (routeFor : String → Except String RouteData)
    (hall : ∀ m ∈ modes, ∃ msg, routeFor m = Except.error msg) :
    (∀ e ∈ commuteEntries modes routeFor, e.duration_minutes = none) ∧
    (commuteEntries modes routeFor).map (fun e => e.mode) = modes := by
  induction modes with
  | nil => simp [commuteEntries]
  | cons m rest ih =>
      obtain ⟨msg, hmsg⟩ := hall m (List.mem_cons_self m rest)
      have hrest := ih (fun m2 hm2 => hall m2 (List.mem_cons_of_mem m hm2))
      rw [commuteEntries, List.foldr_cons, hmsg]
      constructor
      · intro e he
        simp at he
        rcases he with he1 | he1
        · subst he1
          simp [errorEntry]
        · exact hrest.1 e he1
      · simp [errorEntry]
        exact hrest.2

theorem commuteSortKey_eq_top_iff (e : CommuteEntry) :
    commuteSortKey e = ⊤ ↔ e.duration_minutes = none := by
  unfold commuteSortKey
  cases hd : e.duration_minutes with
  | none => simp
  | some d => simp [WithTop.coe_ne_top]

/-- Claim C1 (amended): a failing mode is recorded as an entry with an
error field; `commute_options` is sorted ascending by the duration key
with failed entries keyed +infinity, hence after all succeeding
entries; when at least one mode succeeds, `fastest_option` is the mode
of a minimum-key succeeding entry; when every requested mode fails,
`fastest_option` is the first requested mode (not null); it is null
exactly when no entries were produced at all. -/
theorem C1_commute_failure_handling (modes : List String)
    (routeFor : String → Except String RouteData) (homeInfo workInfo : Tags)
    (departAt : Option String) :
    (∀ m msg, m ∈ modes → routeFor m = Except.error msg →
      errorEntry m msg ∈
        (analyze_commute modes routeFor homeInfo workInfo departAt).commute_options) ∧
    ((analyze_commute modes routeFor homeInfo workInfo departAt).commute_options.Pairwise
      (fun a b => commuteSortKey a ≤ commuteSortKey b)) ∧
    ((analyze_commute modes routeFor homeInfo workInfo departAt).commute_options.Pairwise
      (fun a b => a.error.isSome → b.error.isSome)) ∧
    ((∃ e ∈ commuteEntries modes routeFor, e.error = none) →
      ∃ e, (analyze_commute modes routeFor homeInfo workInfo departAt).commute_options.head? =
          some e ∧
        (analyze_commute modes routeFor homeInfo workInfo departAt).fastest_option =
          some e.mode ∧
        e.error = none ∧
        ∀ e2 ∈ (analyze_commute modes routeFor homeInfo workInfo departAt).commute_options,
          commuteSortKey e ≤ commuteSortKey e2) ∧
    ((∀ m ∈ modes, ∃ msg, routeFor m = Except.error msg) →
      (analyze_commute modes routeFor homeInfo workInfo departAt).fastest_option =
        modes.head?) ∧
    ((analyze_commute modes routeFor homeInfo workInfo departAt).fastest_option = none ↔
      (analyze_commute modes routeFor homeInfo workInfo departAt).commute_options = []) := by
  haveI htot : IsTotal CommuteEntry (fun a b => commuteSortKey a ≤ commuteSortKey b) :=
    ⟨fun a b => le_total _ _⟩
  haveI htrans : IsTrans CommuteEntry (fun a b => commuteSortKey a ≤ commuteSortKey b) :=
    ⟨fun a b c hab hbc => le_trans hab hbc⟩
  have hsorted : ((analyze_commute modes routeFor homeInfo workInfo departAt).commute_options).Pairwise
      (fun a b => commuteSortKey a ≤ commuteSortKey b) :=
    List.sorted_insertionSort _ (commuteEntries modes routeFor)
  have hperm : ((analyze_commute modes routeFor homeInfo workInfo departAt).commute_options).Perm
      (commuteEntries modes routeFor) :=
    List.perm_insertionSort _ (commuteEntries modes routeFor)
  have hshape := commuteEntries_shape modes routeFor
  have hfail_top : ∀ e ∈ commuteEntries modes routeFor, e.error.isSome →
      commuteSortKey e = ⊤ := by
    intro e he herr
    rcases hshape e he with ⟨hd, _⟩ | ⟨_, hnone⟩
    · exact (commuteSortKey_eq_top_iff e).mpr hd
    · rw [hnone] at herr
      simp at herr
  have htop_fail : ∀ e ∈ commuteEntries modes routeFor, commuteSortKey e = ⊤ →
      e.error.isSome := by
    intro e he htopk
    rcases hshape e he with ⟨_, herr⟩ | ⟨hdsome, _⟩
    · exact herr
    · rw [(commuteSortKey_eq_top_iff e).mp htopk] at hdsome
      simp at hdsome
  refine ⟨?_, hsorted, ?_, ?_, ?_, ?_⟩
  · intro m msg hm hr
    exact hperm.mem_iff.mpr (commuteEntries_error_mem modes routeFor m msg hm hr)
  · refine hsorted.imp_of_mem ?_
    intro a b ha hb hab herr
    have ha2 := hperm.mem_iff.mp ha
    have hb2 := hperm.mem_iff.mp hb
    have hka : commuteSortKey a = ⊤ := hfail_top a ha2 herr
    rw [hka] at hab
    exact htop_fail b hb2 (top_le_iff.mp hab)
  · rintro ⟨es, hes, hesnone⟩
    have hes2 : es ∈ (analyze_commute modes routeFor homeInfo workInfo departAt).commute_options :=
      hperm.mem_iff.mpr hes
    cases hsortl : (analyze_commute modes routeFor homeInfo workInfo departAt).commute_options with
    | nil =>
        rw [hsortl] at hes2
        simp at hes2
    | cons e tail =>
        have hpw : List.Pairwise (fun a b => commuteSortKey a ≤ commuteSortKey b) (e :: tail) := by
          rw [← hsortl]
          exact hsorted
        have hmin : ∀ e2 ∈ e :: tail, commuteSortKey e ≤ commuteSortKey e2 := by
          intro e2 he2
          rcases List.mem_cons.mp he2 with he2 | he2
          · subst he2
            exact le_refl _
          · exact (List.pairwise_cons.mp hpw).1 e2 he2
        refine ⟨e, rfl, ?_, ?_, hmin⟩
        · show (analyze_commute modes routeFor homeInfo workInfo departAt).commute_options.head?.map
            (fun x => x.mode) = some e.mode
          rw [hsortl]
          rfl
        · cases herr : e.error with
          | none => rfl
          | some msg =>
              exfalso
              have he_mem : e ∈ commuteEntries modes routeFor := by
                apply hperm.mem_iff.mp
                rw [hsortl]
                exact List.mem_cons_self _ _
              have hka : commuteSortKey e = ⊤ := by
                apply hfail_top e he_mem
                rw [herr]
                rfl
              rw [hsortl] at hes2
              have hkes := hmin es hes2
              rw [hka] at hkes
              have : commuteSortKey es = ⊤ := top_le_iff.mp hkes
              have := htop_fail es hes this
              rw [hesnone] at this
              simp at this
  · intro hall
    obtain ⟨hdur, hmap⟩ := commuteEntries_all_failed modes routeFor hall
    have hpw : List.Pairwise (fun a b => commuteSortKey a ≤ commuteSortKey b)
        (commuteEntries modes routeFor) := by
      apply List.pairwise_of_forall_mem_list
      intro a ha b hb
      have : commuteSortKey b = ⊤ := (commuteSortKey_eq_top_iff b).mpr (hdur b hb)
      rw [this]
      exact le_top
    have heq : (analyze_commute modes routeFor homeInfo workInfo departAt).commute_options =
        commuteEntries modes routeFor := List.Sorted.insertionSort_eq hpw
    show ((analyze_commute modes routeFor homeInfo workInfo departAt).commute_options.head?).map
        (fun x => x.mode) = modes.head?
    rw [heq, ← List.head?_map, hmap]
  · show ((analyze_commute modes routeFor homeInfo workInfo departAt).commute_options.head?).map
        (fun x => x.mode) = none ↔ _
    rw [Option.map_eq_none', List.head?_eq_none_iff]

/-- Claim C1, counterexample: with a single requested mode whose route
request fails, `commute_options` holds the error entry and
`fastest_option` is that failed mode's name — not null as the claim
requires for the all-modes-failed case. -/
theorem C1_counterexample_all_failed_not_null :
    (analyze_commute ["car"] (fun _ => Except.error "Failed to get route: 500")
        [] [] none).commute_options = [errorEntry "car" "Failed to get route: 500"] ∧
    (analyze_commute ["car"] (fun _ => Except.error "Failed to get route: 500")
        [] [] none).fastest_option = some "car" :=
  ⟨rfl, rfl⟩

/-- Witness for C1: the failing mode's error entry is in the options,
and with every mode failing the reported fastest option is the first
requested mode. -/
theorem C1_commute_failure_handling_witness :
    errorEntry "foot" "boom" ∈
      (analyze_commute ["car", "foot"] commuteOracle [] [] none).commute_options ∧
    (analyze_commute ["bike"] (fun _ => Except.error "down") [] [] none).fastest_option =
      (["bike"] : List String).head? := by
  constructor
  · exact (C1_commute_failure_handling ["car", "foot"] commuteOracle [] [] none).1
      "foot" "boom" (by decide) (by rfl)
  · exact (C1_commute_failure_handling ["bike"] (fun _ => Except.error "down")
      [] [] none).2.2.2.2.1 (fun m hm => ⟨"down", rfl⟩)

/-! ## Claim C5 — transportation-mode validation -/

/-- Claim C5, counterexample: `analyze_commute` performs no mode
validation — the invalid mode `teleport` is passed through to the route
oracle unchanged (yielding an error entry with mode `teleport`), even
though the oracle would succeed for `car`; nothing reports
`summary.mode == "car"`. -/
theorem C5_counterexample_commute_mode_not_rewritten :
    "teleport" ∉ valid_modes ∧
    (analyze_commute ["teleport"] teleportOracle [] [] none).commute_options =
      [errorEntry "teleport" "Failed to get route: 400"] ∧
    (analyze_commute ["teleport"] teleportOracle [] [] none).fastest_option =
      some "teleport" := by
  refine ⟨by decide, rfl, rfl⟩


theorem routeResultFor_mode (m : String) (routeFor : String → Except String RouteData)
    (res : DirectionsResult) (h : routeResultFor m routeFor = Except.ok res) :
    res.summary.mode = m := by
  unfold routeResultFor at h
  cases hroute : routeFor m with
  | error e => rw [hroute] at h; simp at h
  | ok data =>
      rw [hroute] at h
      have h2 : (match data.routes with
          | [] => (Except.error "No route found" : Except String DirectionsResult)
          | r :: _ =>
              Except.ok { summary := { distance := r.distance, duration := r.duration, mode := m }
                        , directions := extractSteps r
                        , geometry := r.geometry
                        , waypoints := data.waypoints }) = Except.ok res := h
      cases hroutes : data.routes with
      | nil => rw [hroutes] at h2; simp at h2
      | cons r tail =>
          rw [hroutes] at h2
          simp at h2
          rw [← h2]

/-- Claim C5 (amended): `get_route_directions` rewrites a mode outside
{car, bike, foot} to `car` with a warning and its successful result
reports `summary.mode == "car"` (a valid mode passes through unchanged,
without warning); `analyze_commute`, by contrast, performs no
validation: every entry of its result carries one of the requested
modes verbatim. -/
theorem C5_mode_validation (mode : String) (routeFor : String → Except String RouteData)
    (modes : List String) (homeInfo workInfo : Tags) (departAt : Option String) :
    (mode ∉ valid_modes →
      (get_route_directions mode routeFor).requestedMode = "car" ∧
      (get_route_directions mode routeFor).warnings ≠ [] ∧
      ∀ res, (get_route_directions mode routeFor).result = Except.ok res →
        res.summary.mode = "car") ∧
    (mode ∈ valid_modes →
      (get_route_directions mode routeFor).requestedMode = mode ∧
      (get_route_directions mode routeFor).warnings = [] ∧
      ∀ res, (get_route_directions mode routeFor).result = Except.ok res →
        res.summary.mode = mode) ∧
    (∀ e ∈ (analyze_commute modes routeFor homeInfo workInfo departAt).commute_options,
      e.mode ∈ modes) := by
  refine ⟨?_, ?_, ?_⟩
  · intro hinv
    refine ⟨by simp [get_route_directions, hinv], by simp [get_route_directions, hinv], ?_⟩
    intro res hres
    apply routeResultFor_mode "car" routeFor res
    have : (get_route_directions mode routeFor).result = routeResultFor "car" routeFor := by
      simp [get_route_directions, hinv]
    rw [← this]
    exact hres
  · intro hval
    refine ⟨by simp [get_route_directions, hval], by simp [get_route_directions, hval], ?_⟩
    intro res hres
    apply routeResultFor_mode mode routeFor res
    have : (get_route_directions mode routeFor).result = routeResultFor mode routeFor := by
      simp [get_route_directions, hval]
    rw [← this]
    exact hres
  · intro e he
    exact commuteEntries_mode_mem modes routeFor e
      ((List.perm_insertionSort _ (commuteEntries modes routeFor)).mem_iff.mp he)

/-- Witness for C5 at the invalid mode `teleport`: the request goes out
for `car`, a warning is emitted, and the successful result reports mode
`car`. -/
theorem C5_mode_validation_witness :
    (get_route_directions "teleport" teleportOracle).requestedMode = "car" ∧
    (get_route_directions "teleport" teleportOracle).warnings ≠ [] ∧
    ((get_route_directions "teleport" teleportOracle).result.toOption.getD
      ⟨⟨none, none, ""⟩, [], none, []⟩).summary.mode = "car" := by
  have h := (C5_mode_validation "teleport" teleportOracle [] [] [] none).1 (by decide)
  exact ⟨h.1, h.2.1, h.2.2 _ (by rfl)⟩
